import Mathlib

/-!
Verification development for the outreach / DM-assistant core of the
repository.

The first part embeds the per-thread poll step of the DM reply engine
(`dm_assistant_service.py`): message persistence, the first-sighting rule,
cursor maintenance (including lost-window resynchronization) and the daily
reply cap.  The second part embeds the invite-campaign engine
(`invite_campaign_service.py`): quiet-hours gating, recipient enrollment,
stop-on-reply, step progression and the failure backoff / circuit breaker.

Timestamps are modelled as `Int` instants measured in seconds (the Python
code uses `datetime` values; only ordering and fixed offsets matter here).
Optional values (`Option`) stand for SQL `NULL` / Python `None`.
-/

/-- Characters of `pat` occur as a prefix of `s` (helper for the substring
test used by the rate-limit circuit breaker). -/
def charPrefixB : List Char → List Char → Bool
  | [], _ => true
  | _ :: _, [] => false
  | a :: as, b :: bs => a == b && charPrefixB as bs

/-- Characters of `pat` occur contiguously somewhere inside `s`. -/
def charInfixB (pat : List Char) : List Char → Bool
  | [] => charPrefixB pat []
  | b :: bs => charPrefixB pat (b :: bs) || charInfixB pat bs

/-- Python `pat in s` substring test on strings. -/
def strContains (s pat : String) : Bool := charInfixB pat.toList s.toList

/-- Python truthiness of `text.strip()`: `blankStr s = true` iff the string
strips to the empty string. -/
def blankStr (s : String) : Bool := s.toList.all (fun c => c.isWhitespace)

/-! ## DM assistant: data model

`Msg` is one gateway message after the `_get_attr` / `_as_datetime`
normalization performed by `dm_assistant_service.py` (`item_id`, sender id,
text, optional timestamp).  `TState` is a `DmThreadState` row (the per
(account, thread) cursor).  `PollInput` bundles the per-thread environment
of one poll visit: the fetched window sorted chronologically, whether the
thread came from the pending/request inbox, whether an unprocessed inbound
`DmMessage` row exists for the thread, the generated reply text, and
whether the gateway send succeeds. -/

structure Msg where
  itemId : String
  senderId : String
  text : String
  ts : Option Int
deriving DecidableEq, Repr

structure TState where
  lastSeenItemId : String
  lastSeenAt : Option Int
deriving DecidableEq, Repr

structure PollInput where
  msgs : List Msg
  isPending : Bool
  pendingRowExists : Bool
  genReply : String
  sendOk : Bool
deriving DecidableEq, Repr

/-- Python `my_user_id and sender_id == my_user_id` (line 118 / 533 / 590). -/
def isOwn (myId senderId : String) : Bool := !(myId == "") && senderId == myId

/-- A message counts as inbound when its stripped text is non-empty and it
was not sent by the account itself (lines 531-533 and 588-594). -/
def inboundB (myId : String) (m : Msg) : Bool :=
  !(blankStr m.text) && !(isOwn myId m.senderId)

/-- Line 534: `newest_at and newest_at >= now - timedelta(minutes=10)`.
The recency window `FIRST_SEEN_REPLY_WINDOW_MINUTES = 10` is 600 seconds. -/
def recentB (now : Int) (m : Msg) : Bool :=
  match m.ts with
  | some t => decide (now - 600 ≤ t)
  | none => false

/-- Lines 525-547: decide whether a never-before-seen thread may receive an
immediate reply.  Mirrors the two `is_recent` upgrades for pending-inbox
threads (lines 536-542) and the final test on line 547. -/
def firstSeenAllowed (replyToExisting : Bool) (myId : String) (now : Int)
    (isPending : Bool) (newest : Msg) : Bool :=
  let inb := inboundB myId newest
  let recent0 := recentB now newest
  let recent1 := if newest.ts.isNone && isPending && inb then true else recent0
  let recent2 := if isPending && inb then true else recent1
  replyToExisting || (inb && recent2)

/-- Lines 567-575: the suffix of the window strictly after the first
occurrence of the cursor id; `none` when the cursor id is absent. -/
def newSince (seen : String) : List Msg → Option (List Msg)
  | [] => none
  | m :: rest => if m.itemId == seen then some rest else newSince seen rest

/-- Lines 564-783: processing of a thread once a cursor value is fixed
(either the stored row or the fresh empty-cursor row created on an allowed
first sighting).  Returns the committed cursor and the number of replies
sent (0 or 1).  Every terminal path of the source commits the cursor at the
newest fetched message (lines 578-580, 634-635, 673-674, 732-733, 769-770). -/
def threadCont (myId : String) (inp : PollInput) (newest : Msg) (st : TState) :
    Option TState × Nat :=
  match (if st.lastSeenItemId == "" then some [newest]
         else newSince st.lastSeenItemId inp.msgs) with
  | none => (some ⟨newest.itemId, newest.ts⟩, 0)
  | some newMsgs =>
    if (newMsgs.filter (fun m => inboundB myId m)).isEmpty
        && !(inp.isPending && inp.pendingRowExists) then
      (some ⟨newest.itemId, newest.ts⟩, 0)
    else if blankStr inp.genReply then
      (some ⟨newest.itemId, newest.ts⟩, 0)
    else if inp.sendOk then
      (some ⟨newest.itemId, newest.ts⟩, 1)
    else
      (some ⟨newest.itemId, newest.ts⟩, 0)

/-- Lines 493-783: one poll-cycle visit to a single thread.  `st?` is the
stored `DmThreadState` row (`none` on first sighting).  Threads whose
fetched window is empty are skipped without touching the cursor
(line 506-508). -/
def processThread (replyToExisting : Bool) (myId : String) (now : Int)
    (st? : Option TState) (inp : PollInput) : Option TState × Nat :=
  match inp.msgs.getLast? with
  | none => (st?, 0)
  | some newest =>
    match st? with
    | some st => threadCont myId inp newest st
    | none =>
      if firstSeenAllowed replyToExisting myId now inp.isPending newest then
        threadCont myId inp newest ⟨"", newest.ts⟩
      else
        (some ⟨newest.itemId, newest.ts⟩, 0)

/-- Folding `processThread` over a sequence of poll visits to one thread. -/
def pollSeq (replyToExisting : Bool) (myId : String) (now : Int) :
    Option TState → List PollInput → Option TState
  | st?, [] => st?
  | st?, inp :: rest =>
      pollSeq replyToExisting myId now
        (processThread replyToExisting myId now st? inp).1 rest

/-- Every terminal branch of `threadCont` commits the cursor at the newest
fetched message. -/
theorem threadCont_fst (myId : String) (inp : PollInput) (newest : Msg)
    (st : TState) :
    (threadCont myId inp newest st).1 = some ⟨newest.itemId, newest.ts⟩ := by
  unfold threadCont
  split
  · rfl
  · split
    · rfl
    · split
      · rfl
      · split <;> rfl

/-- A thread visit sends at most one reply. -/
theorem threadCont_snd_le_one (myId : String) (inp : PollInput) (newest : Msg)
    (st : TState) : (threadCont myId inp newest st).2 ≤ 1 := by
  unfold threadCont
  split
  · exact Nat.zero_le 1
  · split
    · exact Nat.zero_le 1
    · split
      · exact Nat.zero_le 1
      · split
        · exact Nat.le_refl 1
        · exact Nat.zero_le 1

/-- A poll visit sends at most one reply. -/
theorem processThread_snd_le_one (replyToExisting : Bool) (myId : String)
    (now : Int) (st? : Option TState) (inp : PollInput) :
    (processThread replyToExisting myId now st? inp).2 ≤ 1 := by
  unfold processThread
  split
  · exact Nat.zero_le 1
  · split
    · exact threadCont_snd_le_one ..
    · split
      · exact threadCont_snd_le_one ..
      · exact Nat.zero_le 1

/-- On a non-empty window, the committed cursor is the newest fetched
message's id and timestamp, whatever path is taken. -/
theorem processThread_fst (replyToExisting : Bool) (myId : String) (now : Int)
    (st? : Option TState) (inp : PollInput) (nm : Msg)
    (hm : inp.msgs.getLast? = some nm) :
    (processThread replyToExisting myId now st? inp).1
      = some ⟨nm.itemId, nm.ts⟩ := by
  unfold processThread
  rw [hm]
  cases st? with
  | some st => exact threadCont_fst ..
  | none =>
    by_cases h : firstSeenAllowed replyToExisting myId now inp.isPending nm
    · simp only [h, if_true]
      exact threadCont_fst ..
    · simp [h]

/-- When no window message carries the cursor id, the delta scan finds
nothing (`passed` never becomes true, lines 567-577). -/
theorem newSince_eq_none (seen : String) (ms : List Msg)
    (h : ∀ m ∈ ms, m.itemId ≠ seen) : newSince seen ms = none := by
  induction ms with
  | nil => rfl
  | cons m rest ih =>
    have hm : (m.itemId == seen) = false :=
      beq_eq_false_iff_ne.mpr (h m (by simp))
    unfold newSince
    rw [hm]
    exact ih (fun x hx => h x (by simp [hx]))

/-- C1: First-sighting safety: on a thread with no stored cursor row, with
`reply_to_existing_threads = false`, when the newest message is not both
inbound and within the 10-minute recency window and the thread is not a
pending-inbox thread with an inbound newest message, the engine stores a
cursor at the newest message's id and timestamp and sends zero replies to
the thread in this cycle. -/
theorem dm_first_sighting_safety (myId : String) (now : Int) (inp : PollInput)
    (nm : Msg)
    (hm : inp.msgs.getLast? = some nm)
    (hrecent : (inboundB myId nm && recentB now nm) = false)
    (hpending : (inp.isPending && inboundB myId nm) = false) :
    processThread false myId now none inp = (some ⟨nm.itemId, nm.ts⟩, 0) := by
  have hall : firstSeenAllowed false myId now inp.isPending nm = false := by
    unfold firstSeenAllowed
    cases hin : inboundB myId nm <;>
      cases hp : inp.isPending <;>
        simp_all
  unfold processThread
  rw [hm]
  simp [hall]

/-- C1 witness: a thread seen for the first time whose only (inbound)
message is far older than the recency window is fast-forwarded without a
reply. -/
theorem dm_first_sighting_safety_witness :
    processThread false "1" 10000 none
      ⟨[⟨"m50", "2", "hello", some 100⟩], false, false, "reply", true⟩
      = (some ⟨"m50", some 100⟩, 0) :=
  dm_first_sighting_safety "1" 10000
    ⟨[⟨"m50", "2", "hello", some 100⟩], false, false, "reply", true⟩
    ⟨"m50", "2", "hello", some 100⟩ rfl (by decide) (by decide)

/-- C4: Lost-window resynchronization: when the stored cursor id is
non-empty but absent from the fetched window, the poll is treated as
having zero new messages: the cursor is reset to the newest fetched
message's id and timestamp and no reply is sent for the thread in this
cycle. -/
theorem dm_lost_window_resync (replyToExisting : Bool) (myId : String)
    (now : Int) (st : TState) (inp : PollInput) (nm : Msg)
    (hm : inp.msgs.getLast? = some nm)
    (hne : st.lastSeenItemId ≠ "")
    (habsent : ∀ m ∈ inp.msgs, m.itemId ≠ st.lastSeenItemId) :
    processThread replyToExisting myId now (some st) inp
      = (some ⟨nm.itemId, nm.ts⟩, 0) := by
  have hbeq : (st.lastSeenItemId == "") = false := beq_eq_false_iff_ne.mpr hne
  have hnone : newSince st.lastSeenItemId inp.msgs = none :=
    newSince_eq_none _ _ habsent
  have hcont : threadCont myId inp nm st = (some ⟨nm.itemId, nm.ts⟩, 0) := by
    unfold threadCont
    rw [hbeq, if_neg (by simp), hnone]
  unfold processThread
  rw [hm]
  exact hcont

/-- C4 witness: a cursor at an id no longer in the window is resynchronized
to the newest message with zero replies. -/
theorem dm_lost_window_resync_witness :
    processThread false "1" 10000 (some ⟨"old", some 50⟩)
      ⟨[⟨"a", "2", "hi", some 60⟩, ⟨"b", "2", "yo", some 70⟩],
        false, false, "reply", true⟩
      = (some ⟨"b", some 70⟩, 0) :=
  dm_lost_window_resync false "1" 10000 ⟨"old", some 50⟩
    ⟨[⟨"a", "2", "hi", some 60⟩, ⟨"b", "2", "yo", some 70⟩],
      false, false, "reply", true⟩
    ⟨"b", "2", "yo", some 70⟩ rfl (by decide) (by decide)

/-- Timestamp of the newest (last) message of a poll window. -/
def newestTs (inp : PollInput) : Option Int :=
  match inp.msgs.getLast? with
  | none => none
  | some m => m.ts

/-- Poll windows that never rotate backwards: each window is non-empty,
its newest message carries a timestamp, and that timestamp is at least the
running lower bound (the previous newest timestamp). -/
def goodWindows : Int → List PollInput → Bool
  | _, [] => true
  | t, inp :: rest =>
      match inp.msgs.getLast? with
      | none => false
      | some m =>
        match m.ts with
        | none => false
        | some t2 => decide (t ≤ t2) && goodWindows t2 rest

/-- C3 counterexample: the stored cursor timestamp can decrease from one
poll to the next.  Poll 1 first-sights an old inbound message at t=1000 and
fast-forwards the cursor to it; poll 2 fetches a window that no longer
contains that id and whose newest message is at t=500 (e.g. the earlier
message was unsent), so lost-window resynchronization moves the cursor
back to timestamp 500 < 1000. -/
theorem dm_cursor_monotonic_counterexample :
    pollSeq false "1" 100000 none
        [⟨[⟨"a", "2", "hi", some 1000⟩], false, false, "", false⟩]
      = some ⟨"a", some 1000⟩
    ∧ pollSeq false "1" 100000 none
        [⟨[⟨"a", "2", "hi", some 1000⟩], false, false, "", false⟩,
         ⟨[⟨"b", "2", "yo", some 500⟩], false, false, "", false⟩]
      = some ⟨"b", some 500⟩
    ∧ (500 : Int) < 1000 := by
  refine ⟨by decide, by decide, by decide⟩

/-- C3 amended: the cursor timestamp is non-decreasing across any sequence
of polls whose fetched windows never rotate backwards, i.e. each poll
fetches a non-empty window whose newest timestamp is present and at least
the previously stored cursor timestamp.  (After every poll on a non-empty
window the cursor sits exactly at the newest fetched message, so this
hypothesis is exactly what forward motion needs.) -/
theorem dm_cursor_monotonic_amended (replyToExisting : Bool) (myId : String)
    (now : Int) (st : TState) (t0 : Int) (envs : List PollInput)
    (h0 : st.lastSeenAt = some t0)
    (hg : goodWindows t0 envs = true) :
    ∃ st2 t1, pollSeq replyToExisting myId now (some st) envs = some st2
      ∧ st2.lastSeenAt = some t1 ∧ t0 ≤ t1 := by
  induction envs generalizing st t0 with
  | nil => exact ⟨st, t0, rfl, h0, le_refl t0⟩
  | cons inp rest ih =>
    unfold goodWindows at hg
    split at hg
    · cases hg
    · rename_i m hL
      split at hg
      · cases hg
      · rename_i t2 hts
        obtain ⟨hle, hg2⟩ := (Bool.and_eq_true _ _).mp hg
        have hfst := processThread_fst replyToExisting myId now (some st) inp m hL
        unfold pollSeq
        rw [hfst]
        obtain ⟨st2, t1, heq2, hat, hle2⟩ :=
          ih ⟨m.itemId, m.ts⟩ t2 (by simpa using hts) hg2
        exact ⟨st2, t1, heq2, hat,
          le_trans (of_decide_eq_true hle) hle2⟩

/-- C3 amended witness: a two-instant forward window keeps the cursor
moving forward. -/
theorem dm_cursor_monotonic_amended_witness :
    ∃ st2 t1, pollSeq false "1" 100000 (some ⟨"a", some 100⟩)
        [⟨[⟨"b", "2", "hi", some 150⟩], false, false, "", false⟩] = some st2
      ∧ st2.lastSeenAt = some t1 ∧ (100 : Int) ≤ t1 :=
  dm_cursor_monotonic_amended false "1" 100000 ⟨"a", some 100⟩ 100
    [⟨[⟨"b", "2", "hi", some 150⟩], false, false, "", false⟩] rfl (by decide)

/-! ## DM assistant: message persistence (`_persist_messages_best_effort`)

A `PRow` is the key part of a `DmMessage` row: `(instagram_account_id,
thread_id, item_id)` — the columns covered by the unique index
`idx_dm_messages_item`.  The store is a list of such rows; the existence
check on lines 124-128 runs against the accumulated session state, so rows
added earlier in the same call are visible to it. -/

structure PRow where
  acc : String
  th : String
  item : String
deriving DecidableEq, Repr

/-- Row matches the (account, thread, item) key. -/
def keyMatch (a t i : String) (r : PRow) : Bool :=
  r.acc == a && r.th == t && r.item == i

/-- Number of stored rows with the given key. -/
def keyCount (db : List PRow) (a t i : String) : Nat :=
  (db.filter (keyMatch a t i)).length

/-- Lines 124-127: `DmMessage.query.filter_by(...).first()` is not `None`. -/
def hasKey (db : List PRow) (a t i : String) : Bool :=
  db.any (keyMatch a t i)

/-- Line 111: `messages[-max_items:] if len(messages) > max_items else messages`. -/
def persistWindow (msgs : List Msg) (maxItems : Nat) : List Msg :=
  if maxItems < msgs.length then msgs.drop (msgs.length - maxItems) else msgs

/-- Lines 116-131: iterate the window, skipping items without an id and
items whose key already exists, inserting the rest. -/
def persistLoop (a t : String) : List Msg → List PRow → List PRow
  | [], db => db
  | m :: rest, db =>
    if m.itemId == "" then persistLoop a t rest db
    else if hasKey db a t m.itemId then persistLoop a t rest db
    else persistLoop a t rest (db ++ [⟨a, t, m.itemId⟩])

/-- Lines 100-139: `_persist_messages_best_effort` for a fixed
(account, thread), restricted to the stored key columns. -/
def persistMessages (a t : String) (msgs : List Msg) (db : List PRow) :
    List PRow :=
  persistLoop a t (persistWindow msgs 12) db

/-- The existence probe agrees with a positive key count. -/
theorem hasKey_iff_pos (a t i : String) (db : List PRow) :
    hasKey db a t i = true ↔ 0 < keyCount db a t i := by
  induction db with
  | nil => simp [hasKey, keyCount]
  | cons r rest ih =>
    cases h : keyMatch a t i r
    · simpa [hasKey, keyCount, List.any_cons, List.filter_cons, h] using ih
    · simp [hasKey, keyCount, List.any_cons, List.filter_cons, h]

/-- Appending a row changes the key count only when the row matches. -/
theorem keyCount_append (a t i : String) (db : List PRow) (r : PRow) :
    keyCount (db ++ [r]) a t i
      = keyCount db a t i + (if keyMatch a t i r then 1 else 0) := by
  cases h : keyMatch a t i r <;>
    simp [keyCount, List.filter_append, List.filter_cons, h]

/-- Ingesting any window never touches the count of a key that is already
stored: the existence check skips every matching item. -/
theorem persistLoop_preserves (a t i : String) (ms : List Msg) :
    ∀ db : List PRow, 0 < keyCount db a t i →
      keyCount (persistLoop a t ms db) a t i = keyCount db a t i := by
  induction ms with
  | nil => intro db _; rfl
  | cons m rest ih =>
    intro db hpos
    unfold persistLoop
    by_cases hmi : (m.itemId == "") = true
    · rw [if_pos hmi]; exact ih db hpos
    · rw [if_neg hmi]
      by_cases hk : hasKey db a t m.itemId = true
      · rw [if_pos hk]; exact ih db hpos
      · rw [if_neg hk]
        have hne : (m.itemId == i) = false := by
          by_contra hcon
          have heq : m.itemId = i := by
            cases hmiq : (m.itemId == i) with
            | false => exact absurd hmiq hcon
            | true => exact eq_of_beq hmiq
          apply hk
          rw [heq]
          exact (hasKey_iff_pos a t i db).mpr hpos
        have hrow : keyMatch a t i ⟨a, t, m.itemId⟩ = false := by
          simp [keyMatch, hne]
        have hcnt : keyCount (db ++ [⟨a, t, m.itemId⟩]) a t i
            = keyCount db a t i := by
          rw [keyCount_append, hrow]; simp
        rw [ih _ (by rw [hcnt]; exact hpos), hcnt]

/-- A window containing an item with a fresh non-empty key inserts exactly
one row for that key. -/
theorem persistLoop_creates (a t i : String) (hi : i ≠ "") (ms : List Msg) :
    ∀ db : List PRow, keyCount db a t i = 0 →
      (∃ m ∈ ms, m.itemId = i) →
      keyCount (persistLoop a t ms db) a t i = 1 := by
  induction ms with
  | nil => intro db _ hex; simp at hex
  | cons m rest ih =>
    intro db h0 hex
    unfold persistLoop
    by_cases hmi : (m.itemId == "") = true
    · rw [if_pos hmi]
      have hmne : m.itemId ≠ i := by
        intro hcon; exact hi (hcon ▸ eq_of_beq hmi)
      obtain ⟨w, hw, hwi⟩ := hex
      rcases List.mem_cons.mp hw with hw1 | hw2
      · exact absurd (hw1 ▸ hwi) hmne
      · exact ih db h0 ⟨w, hw2, hwi⟩
    · rw [if_neg hmi]
      by_cases hk : hasKey db a t m.itemId = true
      · rw [if_pos hk]
        have hmne : m.itemId ≠ i := by
          intro hcon
          have := (hasKey_iff_pos a t i db).mp (hcon ▸ hk)
          omega
        obtain ⟨w, hw, hwi⟩ := hex
        rcases List.mem_cons.mp hw with hw1 | hw2
        · exact absurd (hw1 ▸ hwi) hmne
        · exact ih db h0 ⟨w, hw2, hwi⟩
      · rw [if_neg hk]
        by_cases hmq : m.itemId = i
        · have hrow : keyMatch a t i ⟨a, t, m.itemId⟩ = true := by
            simp [keyMatch, hmq]
          have hcnt : keyCount (db ++ [⟨a, t, m.itemId⟩]) a t i = 1 := by
            rw [keyCount_append, hrow, h0]; simp
          rw [persistLoop_preserves a t i rest _ (by rw [hcnt]; omega), hcnt]
        · have hrow : keyMatch a t i ⟨a, t, m.itemId⟩ = false := by
            simp [keyMatch, hmq]
          have hcnt : keyCount (db ++ [⟨a, t, m.itemId⟩]) a t i = 0 := by
            rw [keyCount_append, hrow, h0]; simp
          obtain ⟨w, hw, hwi⟩ := hex
          rcases List.mem_cons.mp hw with hw1 | hw2
          · exact absurd (hw1 ▸ hwi) hmq
          · exact ih _ hcnt ⟨w, hw2, hwi⟩

/-- C2: Idempotent message ingestion: once a (account, thread, item-id) key
is stored exactly once, re-ingesting any window any number of times leaves
exactly one row for it; and a window containing a message with a fresh
non-empty id leaves exactly one row for that key after any positive number
of ingestions. -/
theorem dm_persist_idempotent (a t i : String) (msgs : List Msg)
    (db : List PRow) (n : Nat) :
    (keyCount db a t i = 1 →
      keyCount ((fun d => persistMessages a t msgs d)^[n] db) a t i = 1)
    ∧ (i ≠ "" → keyCount db a t i = 0 →
        (∃ m ∈ persistWindow msgs 12, m.itemId = i) →
        keyCount ((fun d => persistMessages a t msgs d)^[n + 1] db) a t i = 1) := by
  have hstep : ∀ d : List PRow, keyCount d a t i = 1 →
      keyCount (persistMessages a t msgs d) a t i = 1 := by
    intro d h1
    unfold persistMessages
    rw [persistLoop_preserves a t i _ d (by omega), h1]
  have hiter : ∀ k : Nat, ∀ d : List PRow, keyCount d a t i = 1 →
      keyCount ((fun d2 => persistMessages a t msgs d2)^[k] d) a t i = 1 := by
    intro k
    induction k with
    | zero => intro d h1; simpa using h1
    | succ k2 ih =>
      intro d h1
      rw [Function.iterate_succ_apply]
      exact ih _ (hstep d h1)
  refine ⟨hiter n db, ?_⟩
  intro hi h0 hex
  rw [Function.iterate_succ_apply]
  exact hiter n _ (persistLoop_creates a t i hi _ db h0 hex)

/-- C2 witness: one fresh message ingested three times leaves exactly one
row; re-checking the same via the first conjunct at a one-row store. -/
theorem dm_persist_idempotent_witness :
    keyCount
        ((fun d => persistMessages "A" "T" [⟨"x", "2", "hi", some 5⟩] d)^[3] [])
        "A" "T" "x" = 1 :=
  (dm_persist_idempotent "A" "T" "x" [⟨"x", "2", "hi", some 5⟩] [] 2).2
    (by decide) (by decide) ⟨⟨"x", "2", "hi", some 5⟩, by decide, rfl⟩

/-! ## DM assistant: daily reply cap -/

/-- Line 421: `int(settings.max_replies_per_day or 20)` — `None` and `0`
are both falsy in Python and fall back to the default 20. -/
def capOf (cfg : Option Nat) : Nat :=
  match cfg with
  | none => 20
  | some n => if n = 0 then 20 else n

/-- One thread's worth of poll input: its stored cursor row and its
per-visit environment. -/
structure ThreadIter where
  st : Option TState
  inp : PollInput
deriving DecidableEq, Repr

/-- Lines 493-495 plus the per-thread body: the reply loop over the merged
thread list; before each thread it stops when prior plus new replies have
reached the cap. -/
def runThreads (replyToExisting : Bool) (myId : String) (now : Int)
    (dailySent cap : Nat) : Nat → List ThreadIter → Nat
  | acc, [] => acc
  | acc, th :: rest =>
    if cap ≤ dailySent + acc then acc
    else runThreads replyToExisting myId now dailySent cap
      (acc + (processThread replyToExisting myId now th.st th.inp).2) rest

/-- Lines 420-423 and 493-495: replies sent by one poll of one account,
given the outbound rows already stored today (`_count_replies_today`) and
the configured `max_replies_per_day`. -/
def pollAccountReplies (cfg : Option Nat) (replyToExisting : Bool)
    (myId : String) (now : Int) (dailySent : Nat)
    (threads : List ThreadIter) : Nat :=
  if capOf cfg ≤ dailySent then 0
  else runThreads replyToExisting myId now dailySent (capOf cfg) 0 threads

/-- The in-cycle loop never pushes prior-plus-new replies past the cap. -/
theorem runThreads_le (replyToExisting : Bool) (myId : String) (now : Int)
    (dailySent cap : Nat) (threads : List ThreadIter) :
    ∀ acc : Nat, dailySent + acc ≤ cap →
      dailySent + runThreads replyToExisting myId now dailySent cap acc threads
        ≤ cap := by
  induction threads with
  | nil => intro acc h; exact h
  | cons th rest ih =>
    intro acc h
    unfold runThreads
    by_cases hstop : cap ≤ dailySent + acc
    · rw [if_pos hstop]; exact h
    · rw [if_neg hstop]
      have hle := processThread_snd_le_one replyToExisting myId now th.st th.inp
      exact ih _ (by omega)

/-- C5 counterexample: with `max_replies_per_day` configured as 0 (so zero
replies have been "already sent today" against a cap of 0) the engine still
replies: Python's `or` treats the configured 0 as falsy and substitutes the
default cap 20 (line 421), so a valid inbound message gets one reply. -/
theorem dm_daily_cap_counterexample :
    pollAccountReplies (some 0) false "me" 1000 0
      [⟨some ⟨"x", some 5⟩,
        ⟨[⟨"x", "2", "old", some 5⟩, ⟨"y", "3", "hi", some 999⟩],
          false, false, "ok", true⟩⟩] = 1 := by
  decide

/-- C5 amended: for a configured cap `max_replies_per_day = n` with
`1 ≤ n` (a configured 0 is Python-falsy and is replaced by the default 20),
a poll cycle sends at most `n - dailySent` replies, and sends none at all
once `n` replies are already stored for today. -/
theorem dm_daily_cap_amended (n : Nat) (hn : 1 ≤ n) (replyToExisting : Bool)
    (myId : String) (now : Int) (dailySent : Nat)
    (threads : List ThreadIter) :
    pollAccountReplies (some n) replyToExisting myId now dailySent threads
        ≤ n - dailySent
    ∧ (n ≤ dailySent →
        pollAccountReplies (some n) replyToExisting myId now dailySent threads
          = 0) := by
  have hcap : capOf (some n) = n := by
    show (if n = 0 then 20 else n) = n
    rw [if_neg (by omega)]
  constructor
  · unfold pollAccountReplies
    rw [hcap]
    by_cases h : n ≤ dailySent
    · rw [if_pos h]; omega
    · rw [if_neg h]
      have := runThreads_le replyToExisting myId now dailySent n threads 0
        (by omega)
      omega
  · intro h
    unfold pollAccountReplies
    rw [hcap, if_pos h]

/-- C5 amended witness: cap 1 with one reply already stored today sends
nothing, even to a thread with a fresh valid inbound message. -/
theorem dm_daily_cap_amended_witness :
    pollAccountReplies (some 1) false "me" 1000 1
      [⟨some ⟨"x", some 5⟩,
        ⟨[⟨"x", "2", "old", some 5⟩, ⟨"y", "3", "hi", some 999⟩],
          false, false, "ok", true⟩⟩] = 0 :=
  (dm_daily_cap_amended 1 (by decide) false "me" 1000 1
    [⟨some ⟨"x", some 5⟩,
      ⟨[⟨"x", "2", "old", some 5⟩, ⟨"y", "3", "hi", some 999⟩],
        false, false, "ok", true⟩⟩]).2 (by decide)

/-! ## Invite campaign engine (`invite_campaign_service.py`)

`Step` is one entry of `settings.steps`; `Recipient` is an
`InviteCampaignRecipient` row; `StoreRow` is the part of a `DmMessage` row
read by `_has_inbound_reply`; `IterEnv` is the per-iteration outside world:
the stored messages of the picked recipient's thread, the result of a live
gateway fetch of that thread (`none` = fetch failed), and the outcome of
`service.send_direct_message`.  Gateway messages reuse `Msg` (their item id
is not consulted here). -/

structure Step where
  offsetHours : Int
  template : String
deriving DecidableEq, Repr

structure Recipient where
  userId : String
  accountId : String
  username : String
  recipientUserId : Option String
  status : String
  currentStep : Nat
  enrolledAt : Option Int
  nextSendAt : Option Int
  threadId : Option String
  lastOutboundAt : Option Int
  lastError : Option String
  completedAt : Option Int
deriving DecidableEq, Repr

structure StoreRow where
  direction : String
  text : String
  sentAt : Option Int
deriving DecidableEq, Repr

structure InvSettings where
  stopOnInboundReply : Bool
  allowedStartHour : Option Int
  allowedEndHour : Option Int
  maxSendsPerDay : Option Nat
deriving DecidableEq, Repr

structure IterEnv where
  storeRows : List StoreRow
  fetched : Option (List Msg)
  sendSuccess : Bool
  sendThreadId : Option String
  sendError : Option String
deriving DecidableEq, Repr

/-- Lines 49-52: `int(getattr(settings, 'allowed_start_hour', 8) or 8)`
then clamping to [0, 23].  A stored `NULL` — and, because Python's `or`
tests truthiness, a stored 0 — falls back to the default. -/
def effHour (cfg : Option Int) (dflt : Int) : Int :=
  max 0 (min (match cfg with
              | none => dflt
              | some v => if v = 0 then dflt else v) 23)

/-- Lines 39-64: `_is_within_allowed_hours`, taking the account-timezone
local hour `h` as input. -/
def isWithinAllowedHours (startCfg endCfg : Option Int) (h : Int) : Bool :=
  if effHour startCfg 8 = effHour endCfg 22 then true
  else if effHour startCfg 8 < effHour endCfg 22 then
    decide (effHour startCfg 8 ≤ h ∧ h < effHour endCfg 22)
  else
    decide (effHour startCfg 8 ≤ h ∨ h < effHour endCfg 22)

/-- The allowed-hours condition exactly as the specification words it, for
comparison against the code's `isWithinAllowedHours`. -/
def allowedSpecFormula (s e h : Int) : Prop :=
  s = e ∨ (s < e ∧ s ≤ h ∧ h < e) ∨ (e < s ∧ (s ≤ h ∨ h < e))

/-- Lines 215-251: `_has_inbound_reply` — Message Store fast path first,
then a live gateway fetch of the thread (`none` models a failed fetch,
which returns `False` on line 238-239). -/
def hasInboundReply (rows : List StoreRow) (lastOut : Int) (myId : String)
    (fetched : Option (List Msg)) : Bool :=
  if rows.any (fun r => r.direction == "in"
      && (match r.sentAt with
          | some ts => decide (lastOut < ts)
          | none => false)) then
    true
  else
    match fetched with
    | none => false
    | some msgs =>
      msgs.any (fun m => !(isOwn myId m.senderId) && !(blankStr m.text)
        && (match m.ts with
            | some ts => decide (lastOut < ts)
            | none => false))

/-- Lines 254-262: `_compute_next_send_at` (offsets are clamped below at
zero; a missing step index yields `None`). -/
def computeNextSendAt (enrolledAt : Int) (steps : List Step) (i : Nat) :
    Option Int :=
  if steps.length ≤ i then none
  else some (enrolledAt + 3600 * max 0 (steps.getD i ⟨0, ""⟩).offsetHours)

/-- Python truthiness of `rec.thread_id` (`None` and `''` are falsy). -/
def threadTruthy : Option String → Bool
  | none => false
  | some t => !(t == "")

/-- Lines 383-390: the stop-on-reply guard for the picked recipient. -/
def stopGuard (stg : InvSettings) (rec : Recipient) (myId : String)
    (env : IterEnv) : Bool :=
  stg.stopOnInboundReply && threadTruthy rec.threadId
    && (match rec.lastOutboundAt with
        | none => false
        | some lo => hasInboundReply env.storeRows lo myId env.fetched)

/-- Line 462: `str(err or 'send_failed')` — `None` and `''` are falsy. -/
def errTextOf : Option String → String
  | none => "send_failed"
  | some e => if e = "" then "send_failed" else e

/-- Line 468: abort the rest of the cycle when the error text contains
`rate_limit` or `feedback_required` as a substring. -/
def shouldAbort : Option String → Bool
  | none => false
  | some e => strContains e "rate_limit" || strContains e "feedback_required"

/-- Line 442: `rec.thread_id = thread_id or rec.thread_id`. -/
def newThreadId (sent old : Option String) : Option String :=
  match sent with
  | none => old
  | some t => if t = "" then old else some t

/-- Per-iteration outcome counters plus the circuit-breaker flag. -/
structure IterOut where
  sentC : Nat := 0
  stoppedC : Nat := 0
  completedC : Nat := 0
  failedC : Nat := 0
  abort : Bool := false
deriving DecidableEq, Repr

/-- Lines 383-469: the body of one `_run_for_account` loop iteration,
applied to the picked due recipient. -/
def processIteration (stg : InvSettings) (steps : List Step) (myId : String)
    (now : Int) (rec : Recipient) (env : IterEnv) : Recipient × IterOut :=
  if stopGuard stg rec myId env then
    ({ rec with
        status := "stopped"
        completedAt := some now }, {stoppedC := 1})
  else if steps.length ≤ rec.currentStep then
    ({ rec with
        status := "completed"
        completedAt := some now
        nextSendAt := none }, {completedC := 1})
  else if blankStr (steps.getD rec.currentStep ⟨0, ""⟩).template then
    if steps.length ≤ rec.currentStep + 1 then
      ({ rec with
          currentStep := rec.currentStep + 1
          status := "completed"
          completedAt := some now
          nextSendAt := none }, {completedC := 1})
    else
      ({ rec with
          currentStep := rec.currentStep + 1
          nextSendAt :=
            computeNextSendAt (rec.enrolledAt.getD now) steps
              (rec.currentStep + 1) }, {})
  else if env.sendSuccess then
    match computeNextSendAt (rec.enrolledAt.getD now) steps
        (rec.currentStep + 1) with
    | none =>
      ({ rec with
          threadId := newThreadId env.sendThreadId rec.threadId
          lastOutboundAt := some now
          lastError := none
          currentStep := rec.currentStep + 1
          status := "completed"
          completedAt := some now
          nextSendAt := none },
       { sentC := 1, completedC := 1 })
    | some t2 =>
      ({ rec with
          threadId := newThreadId env.sendThreadId rec.threadId
          lastOutboundAt := some now
          lastError := none
          currentStep := rec.currentStep + 1
          nextSendAt := some t2 },
       {sentC := 1})
  else
    ({ rec with
        lastError := some (errTextOf env.sendError)
        nextSendAt := some (now + 43200) },
     { failedC := 1, abort := shouldAbort env.sendError })

/-- Line 268-271 filters of `_pick_due_recipient`. -/
def dueB (uid aid : String) (now : Int) (r : Recipient) : Bool :=
  r.userId == uid && r.accountId == aid && r.status == "active"
    && (match r.nextSendAt with
        | some t2 => decide (t2 ≤ now)
        | none => false)

/-- Earliest `next_send_at` among candidates (the `order_by ... first()`). -/
def pickAux : Option Recipient → List Recipient → Option Recipient
  | best, [] => best
  | best, r :: rest =>
    match best with
    | none => pickAux (some r) rest
    | some b =>
      if (r.nextSendAt.getD 0) < (b.nextSendAt.getD 0) then pickAux (some r) rest
      else pickAux (some b) rest

/-- Lines 265-272: `_pick_due_recipient`. -/
def pickDue (db : List Recipient) (uid aid : String) (now : Int) :
    Option Recipient :=
  pickAux none (db.filter (dueB uid aid now))

/-- Replace the stored row of the processed recipient (matched by the
(account, username) unique key). -/
def updateRec (db : List Recipient) (aid uname : String) (r2 : Recipient) :
    List Recipient :=
  db.map (fun r => if r.accountId == aid && r.username == uname then r2 else r)

/-- Per-cycle counters returned by `_run_for_account`. -/
structure Stats where
  sent : Nat := 0
  stopped : Nat := 0
  completed : Nat := 0
  failed : Nat := 0
deriving DecidableEq, Repr

def addOut (s : Stats) (o : IterOut) : Stats :=
  ⟨s.sent + o.sentC, s.stopped + o.stoppedC, s.completed + o.completedC,
   s.failed + o.failedC⟩

/-- Lines 358-469: the per-account loop, one fuel unit per
`range(remaining)` iteration.  The contacts pool is modelled as exhausted:
when no recipient is due the loop stops (fresh-follower enrollment itself
is `ensureRecipientEnrolled` below). -/
def runLoop (stg : InvSettings) (steps : List Step) (myId uid aid : String)
    (now : Int) : Nat → List Recipient → List IterEnv → Stats →
    List Recipient × Stats
  | 0, db, _, acc => (db, acc)
  | fuel + 1, db, envs, acc =>
    match pickDue db uid aid now with
    | none => (db, acc)
    | some rec =>
      match envs with
      | [] => (db, acc)
      | env :: rest =>
        if (processIteration stg steps myId now rec env).2.abort then
          (updateRec db aid rec.username
             (processIteration stg steps myId now rec env).1,
           addOut acc (processIteration stg steps myId now rec env).2)
        else
          runLoop stg steps myId uid aid now fuel
            (updateRec db aid rec.username
              (processIteration stg steps myId now rec env).1)
            rest
            (addOut acc (processIteration stg steps myId now rec env).2)

/-- Lines 334-340: remaining daily quota (`int(settings.max_sends_per_day
or 20)` has the same falsy-zero default as the DM cap), optionally capped
by the runner's `max_per_account`. -/
def remainingQuota (cfg : Option Nat) (sentToday : Nat)
    (maxPerAccount : Option Nat) : Nat :=
  match maxPerAccount with
  | none => capOf cfg - sentToday
  | some m => min (capOf cfg - sentToday) m

/-- Lines 302-471: `_run_for_account`: the account gates in source order —
steps configured (line 312-314), allowed hours (line 316-318), decrypt +
login (lines 320-329, summarized by `loginOk`), remaining quota (lines
334-340) — then the send loop. -/
def runForAccount (stg : InvSettings) (steps : List Step) (myId uid aid : String)
    (now localHour : Int) (loginOk : Bool) (sentToday : Nat)
    (maxPerAccount : Option Nat) (db : List Recipient) (envs : List IterEnv) :
    List Recipient × Stats :=
  if steps.isEmpty then (db, {})
  else if !(isWithinAllowedHours stg.allowedStartHour stg.allowedEndHour
      localHour) then (db, {})
  else if !loginOk then (db, {})
  else if remainingQuota stg.maxSendsPerDay sentToday maxPerAccount = 0 then
    (db, {})
  else
    runLoop stg steps myId uid aid now
      (remainingQuota stg.maxSendsPerDay sentToday maxPerAccount) db envs {}

/-- Lines 170-173: lookup by the (account, recipient-username) unique key. -/
def findRecipient (db : List Recipient) (aid uname : String) :
    Option Recipient :=
  db.find? (fun r => r.accountId == aid && r.username == uname)

/-- Lines 164-198: `_ensure_recipient_enrolled` — return an existing row
untouched, otherwise insert a fresh `active` step-0 row due immediately. -/
def ensureRecipientEnrolled (uid aid uname : String) (ruid : Option String)
    (now : Int) (db : List Recipient) : List Recipient × Option Recipient :=
  match findRecipient db aid uname with
  | some r => (db, some r)
  | none =>
    (db ++ [⟨uid, aid, uname, ruid, "active", 0, some now, some now,
             none, none, none, none⟩],
     some ⟨uid, aid, uname, ruid, "active", 0, some now, some now,
           none, none, none, none⟩)

/-- Clamping is the identity on configured hours in 1..23. -/
theorem effHour_id (v d : Int) (h1 : 1 ≤ v) (h2 : v ≤ 23) :
    effHour (some v) d = v := by
  show max 0 (min (if v = 0 then d else v) 23) = v
  rw [if_neg (by omega), min_eq_left h2, max_eq_right (by omega)]

/-- C8 counterexample: with a configured window (0, 6) a local hour of 10
satisfies the code but not the claimed formula: a configured start hour of
0 is Python-falsy and is silently replaced by the default 8 (line 49),
turning the window into the wrapping window (8, 6). -/
theorem invite_quiet_hours_counterexample :
    isWithinAllowedHours (some 0) (some 6) 10 = true
    ∧ ¬ allowedSpecFormula 0 6 10 := by
  constructor
  · decide
  · unfold allowedSpecFormula
    omega

/-- C8 amended: for windows whose configured hours both lie in 1..23 (a
configured 0 is Python-falsy, treated as unset and replaced by the
defaults 8 and 22), the hour gate equals the claimed formula; with the
window (22, 6) local hour 23 is allowed and local hour 12 is not; and
whenever the gate is closed the whole account cycle is a no-op. -/
theorem invite_quiet_hours_amended :
    (∀ s e h : Int, 1 ≤ s → s ≤ 23 → 1 ≤ e → e ≤ 23 →
      (isWithinAllowedHours (some s) (some e) h = true ↔
        allowedSpecFormula s e h))
    ∧ (isWithinAllowedHours (some 22) (some 6) 23 = true
       ∧ isWithinAllowedHours (some 22) (some 6) 12 = false)
    ∧ (∀ (stg : InvSettings) (steps : List Step) (myId uid aid : String)
        (now localHour : Int) (loginOk : Bool) (sentToday : Nat)
        (maxPerAccount : Option Nat) (db : List Recipient)
        (envs : List IterEnv),
        isWithinAllowedHours stg.allowedStartHour stg.allowedEndHour
          localHour = false →
        runForAccount stg steps myId uid aid now localHour loginOk sentToday
          maxPerAccount db envs = (db, {})) := by
  refine ⟨?_, ⟨by decide, by decide⟩, ?_⟩
  · intro s e h hs1 hs2 he1 he2
    unfold isWithinAllowedHours
    rw [effHour_id s 8 hs1 hs2, effHour_id e 22 he1 he2]
    unfold allowedSpecFormula
    by_cases h1 : s = e
    · simp [h1]
    · rw [if_neg h1]
      by_cases h2 : s < e
      · rw [if_pos h2]
        simp only [decide_eq_true_eq]
        omega
      · rw [if_neg h2]
        simp only [decide_eq_true_eq]
        omega
  · intro stg steps myId uid aid now localHour loginOk sentToday
      maxPerAccount db envs h
    unfold runForAccount
    rw [h]
    split
    · rfl
    · simp

/-- C8 amended witness: window (22, 6) at local hour 23 satisfies the
formula, and a cycle at a disallowed local hour changes nothing. -/
theorem invite_quiet_hours_amended_witness :
    (isWithinAllowedHours (some 22) (some 6) 23 = true ↔
      allowedSpecFormula 22 6 23)
    ∧ runForAccount ⟨false, some 8, some 22, none⟩ [⟨0, "hi"⟩] "m" "u" "a"
        0 2 true 0 none [] [] = ([], {}) :=
  ⟨invite_quiet_hours_amended.1 22 6 23 (by decide) (by decide) (by decide)
    (by decide),
   invite_quiet_hours_amended.2.2 ⟨false, some 8, some 22, none⟩ [⟨0, "hi"⟩]
    "m" "u" "a" 0 2 true 0 none [] [] (by decide)⟩

/-- Reduction of `processIteration` on the send path (guard passed, step in
range, non-empty template): the outcome is determined by
`_compute_next_send_at` for the advanced step. -/
theorem processIteration_send (stg : InvSettings) (steps : List Step)
    (myId : String) (now : Int) (rec : Recipient) (env : IterEnv)
    (hguard : stopGuard stg rec myId env = false)
    (hi : rec.currentStep < steps.length)
    (htempl : blankStr (steps.getD rec.currentStep ⟨0, ""⟩).template = false)
    (hsucc : env.sendSuccess = true) :
    processIteration stg steps myId now rec env
      = (match computeNextSendAt (rec.enrolledAt.getD now) steps
            (rec.currentStep + 1) with
         | none =>
           ({ rec with
               threadId := newThreadId env.sendThreadId rec.threadId
               lastOutboundAt := some now
               lastError := none
               currentStep := rec.currentStep + 1
               status := "completed"
               completedAt := some now
               nextSendAt := none },
            { sentC := 1, completedC := 1 })
         | some t2 =>
           ({ rec with
               threadId := newThreadId env.sendThreadId rec.threadId
               lastOutboundAt := some now
               lastError := none
               currentStep := rec.currentStep + 1
               nextSendAt := some t2 },
            {sentC := 1})) := by
  unfold processIteration
  rw [hguard]
  rw [if_neg (by simp)]
  rw [if_neg (by omega : ¬ steps.length ≤ rec.currentStep)]
  rw [htempl]
  rw [if_neg (by simp)]
  rw [hsucc, if_pos rfl]

/-- C6: Step progression determinism: when an active recipient enrolled at
time T has its in-range step with a non-empty template sent successfully,
its current step becomes i+1 and, when a step i+1 exists (with hour offset
off ≥ 0), `next_send_at` becomes T + off hours; when step i was the last
one, status becomes `completed` and `next_send_at` becomes null. -/
theorem invite_step_progression (stg : InvSettings) (steps : List Step)
    (myId : String) (now T : Int) (rec : Recipient) (env : IterEnv)
    (_hactive : rec.status = "active")
    (hguard : stopGuard stg rec myId env = false)
    (hT : rec.enrolledAt = some T)
    (hi : rec.currentStep < steps.length)
    (htempl : blankStr (steps.getD rec.currentStep ⟨0, ""⟩).template = false)
    (hsucc : env.sendSuccess = true) :
    ((processIteration stg steps myId now rec env).1.currentStep
        = rec.currentStep + 1)
    ∧ ((processIteration stg steps myId now rec env).2.sentC = 1)
    ∧ (rec.currentStep + 1 < steps.length →
        0 ≤ (steps.getD (rec.currentStep + 1) ⟨0, ""⟩).offsetHours →
        (processIteration stg steps myId now rec env).1.nextSendAt
          = some (T + 3600
              * (steps.getD (rec.currentStep + 1) ⟨0, ""⟩).offsetHours))
    ∧ (steps.length ≤ rec.currentStep + 1 →
        (processIteration stg steps myId now rec env).1.status = "completed"
        ∧ (processIteration stg steps myId now rec env).1.nextSendAt
            = none) := by
  have heq := processIteration_send stg steps myId now rec env hguard hi
    htempl hsucc
  have hen : rec.enrolledAt.getD now = T := by rw [hT]; rfl
  rw [hen] at heq
  by_cases hnext : steps.length ≤ rec.currentStep + 1
  · have hcomp : computeNextSendAt T steps (rec.currentStep + 1) = none := by
      unfold computeNextSendAt; rw [if_pos hnext]
    rw [hcomp] at heq
    refine ⟨by rw [heq], by rw [heq], ?_, ?_⟩
    · intro h _; omega
    · intro _; rw [heq]; exact ⟨rfl, rfl⟩
  · have hcomp : computeNextSendAt T steps (rec.currentStep + 1)
        = some (T + 3600
            * max 0 (steps.getD (rec.currentStep + 1) ⟨0, ""⟩).offsetHours) := by
      unfold computeNextSendAt; rw [if_neg hnext]
    rw [hcomp] at heq
    refine ⟨by rw [heq], by rw [heq], ?_, ?_⟩
    · intro _ hoff
      rw [heq]
      simp only [Option.some.injEq]
      rw [max_eq_right hoff]
    · intro h; omega

/-- C6 witness: steps with offsets [0, 48, 120]; after step 0 succeeds the
recipient sits at step 1 with `next_send_at = T + 48h` (T = 1000s, 48h =
172800s). -/
theorem invite_step_progression_witness :
    ((processIteration ⟨false, none, none, none⟩
        [⟨0, "a"⟩, ⟨48, "b"⟩, ⟨120, "c"⟩] "m" 5000
        ⟨"u", "a", "bob", none, "active", 0, some 1000, some 1000,
          none, none, none, none⟩
        ⟨[], none, true, some "th", none⟩).1.currentStep = 1)
    ∧ ((processIteration ⟨false, none, none, none⟩
        [⟨0, "a"⟩, ⟨48, "b"⟩, ⟨120, "c"⟩] "m" 5000
        ⟨"u", "a", "bob", none, "active", 0, some 1000, some 1000,
          none, none, none, none⟩
        ⟨[], none, true, some "th", none⟩).1.nextSendAt
          = some (1000 + 3600 * 48)) :=
  ⟨(invite_step_progression ⟨false, none, none, none⟩
      [⟨0, "a"⟩, ⟨48, "b"⟩, ⟨120, "c"⟩] "m" 5000 1000
      ⟨"u", "a", "bob", none, "active", 0, some 1000, some 1000,
        none, none, none, none⟩
      ⟨[], none, true, some "th", none⟩
      rfl (by decide) rfl (by decide) (by decide) rfl).1,
   (invite_step_progression ⟨false, none, none, none⟩
      [⟨0, "a"⟩, ⟨48, "b"⟩, ⟨120, "c"⟩] "m" 5000 1000
      ⟨"u", "a", "bob", none, "active", 0, some 1000, some 1000,
        none, none, none, none⟩
      ⟨[], none, true, some "th", none⟩
      rfl (by decide) rfl (by decide) (by decide) rfl).2.2.1
      (by decide) (by decide)⟩

/-- `pickAux` only ever returns its accumulator or a list element. -/
theorem pickAux_some (l : List Recipient) :
    ∀ (best : Option Recipient) (r2 : Recipient),
      pickAux best l = some r2 → best = some r2 ∨ r2 ∈ l := by
  induction l with
  | nil => intro best r2 h; exact Or.inl h
  | cons r rest ih =>
    intro best r2 h
    unfold pickAux at h
    cases best with
    | none =>
      dsimp only at h
      rcases ih (some r) r2 h with h1 | h2
      · cases Option.some.inj h1
        exact Or.inr (List.mem_cons_self r rest)
      · exact Or.inr (List.mem_cons_of_mem _ h2)
    | some b =>
      dsimp only at h
      by_cases hcmp : (r.nextSendAt.getD 0) < (b.nextSendAt.getD 0)
      · rw [if_pos hcmp] at h
        rcases ih (some r) r2 h with h1 | h2
        · cases Option.some.inj h1
          exact Or.inr (List.mem_cons_self r rest)
        · exact Or.inr (List.mem_cons_of_mem _ h2)
      · rw [if_neg hcmp] at h
        rcases ih (some b) r2 h with h1 | h2
        · exact Or.inl h1
        · exact Or.inr (List.mem_cons_of_mem _ h2)

/-- `_pick_due_recipient` only returns recipients whose status is
`active`: a stopped or completed recipient is never selected again. -/
theorem pickDue_active (db : List Recipient) (uid aid : String) (now2 : Int)
    (r2 : Recipient) (h : pickDue db uid aid now2 = some r2) :
    r2.status = "active" := by
  unfold pickDue at h
  rcases pickAux_some _ none r2 h with h1 | h2
  · cases h1
  · have hdue : dueB uid aid now2 r2 = true := List.of_mem_filter h2
    unfold dueB at hdue
    have h3 := (Bool.and_eq_true _ _).mp hdue
    have h4 := (Bool.and_eq_true _ _).mp h3.1
    have h5 := (Bool.and_eq_true _ _).mp h4.1
    exact eq_of_beq h4.2

/-- C7: Stop-on-reply: with `stop_on_inbound_reply` enabled, a recipient
with a (truthy) thread id and last outbound time T is marked `stopped` and
receives no send in the cycle that finds an inbound message with non-empty
text strictly after T — whether that message sits in the Message Store or
is only seen in a live gateway fetch; further cycles never pick a stopped
recipient, so no further message is ever sent to them. -/
theorem invite_stop_on_reply (stg : InvSettings) (steps : List Step)
    (myId : String) (now T : Int) (rec : Recipient) (env : IterEnv)
    (hflag : stg.stopOnInboundReply = true)
    (hthread : threadTruthy rec.threadId = true)
    (hlast : rec.lastOutboundAt = some T)
    (hmsg : (∃ r2 ∈ env.storeRows, r2.direction = "in"
              ∧ blankStr r2.text = false
              ∧ ∃ ts, r2.sentAt = some ts ∧ T < ts)
          ∨ (∃ msgs, env.fetched = some msgs ∧ ∃ m ∈ msgs,
              isOwn myId m.senderId = false ∧ blankStr m.text = false
              ∧ ∃ ts, m.ts = some ts ∧ T < ts)) :
    ((processIteration stg steps myId now rec env).1.status = "stopped")
    ∧ ((processIteration stg steps myId now rec env).2.sentC = 0)
    ∧ (∀ (db : List Recipient) (uid aid : String) (now2 : Int)
        (r2 : Recipient),
        pickDue db uid aid now2 = some r2 → r2.status = "active") := by
  have hreply : hasInboundReply env.storeRows T myId env.fetched = true := by
    unfold hasInboundReply
    rcases hmsg with ⟨r2, hmem, hdir, _, ts, hts, hlt⟩ | ⟨msgs, hf, m, hmem, hown, htext, ts, hts, hlt⟩
    · rw [if_pos]
      exact List.any_eq_true.mpr
        ⟨r2, hmem, by simp [hdir, hts, hlt]⟩
    · by_cases hany : env.storeRows.any (fun r3 => r3.direction == "in"
          && (match r3.sentAt with
              | some ts2 => decide (T < ts2)
              | none => false)) = true
      · rw [if_pos hany]
      · rw [if_neg hany, hf]
        exact List.any_eq_true.mpr
          ⟨m, hmem, by simp [hown, htext, hts, hlt]⟩
  have hguard : stopGuard stg rec myId env = true := by
    unfold stopGuard
    rw [hflag, hthread, hlast]
    simp [hreply]
  refine ⟨?_, ?_, fun db uid aid now2 r2 h => pickDue_active db uid aid now2 r2 h⟩
  · unfold processIteration
    rw [hguard, if_pos rfl]
  · unfold processIteration
    rw [hguard, if_pos rfl]

/-- C7 witness: a stored inbound row at t=400 after a last outbound at
t=100 stops the recipient without sending. -/
theorem invite_stop_on_reply_witness :
    ((processIteration ⟨true, none, none, none⟩ [⟨0, "hi"⟩] "m" 500
        ⟨"u", "a", "bob", none, "active", 1, some 50, some 450,
          some "th", some 100, none, none⟩
        ⟨[⟨"in", "ok", some 400⟩], none, true, none, none⟩).1.status
      = "stopped")
    ∧ ((processIteration ⟨true, none, none, none⟩ [⟨0, "hi"⟩] "m" 500
        ⟨"u", "a", "bob", none, "active", 1, some 50, some 450,
          some "th", some 100, none, none⟩
        ⟨[⟨"in", "ok", some 400⟩], none, true, none, none⟩).2.sentC = 0) :=
  ⟨(invite_stop_on_reply ⟨true, none, none, none⟩ [⟨0, "hi"⟩] "m" 500 100
      ⟨"u", "a", "bob", none, "active", 1, some 50, some 450,
        some "th", some 100, none, none⟩
      ⟨[⟨"in", "ok", some 400⟩], none, true, none, none⟩
      rfl (by decide) rfl
      (Or.inl ⟨⟨"in", "ok", some 400⟩, by decide, rfl, by decide,
        400, rfl, by decide⟩)).1,
   (invite_stop_on_reply ⟨true, none, none, none⟩ [⟨0, "hi"⟩] "m" 500 100
      ⟨"u", "a", "bob", none, "active", 1, some 50, some 450,
        some "th", some 100, none, none⟩
      ⟨[⟨"in", "ok", some 400⟩], none, true, none, none⟩
      rfl (by decide) rfl
      (Or.inl ⟨⟨"in", "ok", some 400⟩, by decide, rfl, by decide,
        400, rfl, by decide⟩)).2.1⟩

/-- C9 counterexample: a send failure whose error text contains
`challenge` (but neither `rate_limit` nor `feedback_required`) does NOT
trip the circuit breaker: line 468 only tests the two substrings
`rate_limit` and `feedback_required`, so the failure is recorded and
backed off but the cycle continues to further recipients. -/
theorem invite_failure_backoff_counterexample :
    strContains "challenge_required" "challenge" = true
    ∧ ((processIteration ⟨false, none, none, none⟩ [⟨0, "hi"⟩] "m" 500
        ⟨"u", "a", "bob", none, "active", 0, some 50, some 450,
          none, none, none, none⟩
        ⟨[], none, false, none, some "challenge_required"⟩).2.failedC = 1)
    ∧ ((processIteration ⟨false, none, none, none⟩ [⟨0, "hi"⟩] "m" 500
        ⟨"u", "a", "bob", none, "active", 0, some 50, some 450,
          none, none, none, none⟩
        ⟨[], none, false, none, some "challenge_required"⟩).2.abort
      = false) := by
  refine ⟨by decide, by decide, by decide⟩

/-- C9 amended: every failed send records the error on the recipient,
defers them by the fixed 12-hour backoff (43200s) with status untouched
(an active recipient stays active), counts one failure and sends nothing;
the cycle-abort flag is raised exactly when the error text contains
`rate_limit` or `feedback_required` as a substring (`challenge` alone does
not abort), and when it is raised the loop returns immediately, processing
no further recipients. -/
theorem invite_failure_backoff_amended (stg : InvSettings) (steps : List Step)
    (myId uid aid : String) (now : Int) (rec : Recipient) (env : IterEnv)
    (hguard : stopGuard stg rec myId env = false)
    (hi : rec.currentStep < steps.length)
    (htempl : blankStr (steps.getD rec.currentStep ⟨0, ""⟩).template = false)
    (hfail : env.sendSuccess = false) :
    ((processIteration stg steps myId now rec env).1.nextSendAt
        = some (now + 43200))
    ∧ ((processIteration stg steps myId now rec env).1.status = rec.status)
    ∧ ((processIteration stg steps myId now rec env).1.lastError
        = some (errTextOf env.sendError))
    ∧ ((processIteration stg steps myId now rec env).2.failedC = 1)
    ∧ ((processIteration stg steps myId now rec env).2.sentC = 0)
    ∧ ((processIteration stg steps myId now rec env).2.abort
        = shouldAbort env.sendError)
    ∧ (∀ e, env.sendError = some e →
        (processIteration stg steps myId now rec env).2.abort
          = (strContains e "rate_limit" || strContains e "feedback_required"))
    ∧ (∀ (db : List Recipient) (envs : List IterEnv) (acc : Stats)
        (fuel : Nat),
        pickDue db uid aid now = some rec →
        (processIteration stg steps myId now rec env).2.abort = true →
        runLoop stg steps myId uid aid now (fuel + 1) db (env :: envs) acc
          = (updateRec db aid rec.username
               (processIteration stg steps myId now rec env).1,
             addOut acc (processIteration stg steps myId now rec env).2)) := by
  have heq : processIteration stg steps myId now rec env
      = ({ rec with
            lastError := some (errTextOf env.sendError)
            nextSendAt := some (now + 43200) },
         { failedC := 1, abort := shouldAbort env.sendError }) := by
    unfold processIteration
    rw [hguard]
    rw [if_neg (by simp)]
    rw [if_neg (by omega : ¬ steps.length ≤ rec.currentStep)]
    rw [htempl]
    rw [if_neg (by simp)]
    rw [hfail]
    rw [if_neg (by simp)]
  refine ⟨by rw [heq], by rw [heq], by rw [heq], by rw [heq], by rw [heq],
    by rw [heq], ?_, ?_⟩
  · intro e he
    rw [heq]
    show shouldAbort env.sendError = _
    rw [he]
    rfl
  · intro db envs acc fuel hpick habort
    unfold runLoop
    rw [hpick]
    dsimp only
    rw [if_pos habort]

/-- C9 amended witness: a `rate_limit` failure is backed off 12 hours and
raises the abort flag, and the loop then stops at once. -/
theorem invite_failure_backoff_amended_witness :
    ((processIteration ⟨false, none, none, none⟩ [⟨0, "hi"⟩] "m" 500
        ⟨"u", "a", "bob", none, "active", 0, some 50, some 450,
          none, none, none, none⟩
        ⟨[], none, false, none, some "rate_limit hit"⟩).1.nextSendAt
      = some (500 + 43200))
    ∧ ((processIteration ⟨false, none, none, none⟩ [⟨0, "hi"⟩] "m" 500
        ⟨"u", "a", "bob", none, "active", 0, some 50, some 450,
          none, none, none, none⟩
        ⟨[], none, false, none, some "rate_limit hit"⟩).2.abort = true) :=
  ⟨(invite_failure_backoff_amended ⟨false, none, none, none⟩ [⟨0, "hi"⟩]
      "m" "u" "a" 500
      ⟨"u", "a", "bob", none, "active", 0, some 50, some 450,
        none, none, none, none⟩
      ⟨[], none, false, none, some "rate_limit hit"⟩
      (by decide) (by decide) (by decide) rfl).1,
   by
    rw [(invite_failure_backoff_amended ⟨false, none, none, none⟩ [⟨0, "hi"⟩]
      "m" "u" "a" 500
      ⟨"u", "a", "bob", none, "active", 0, some 50, some 450,
        none, none, none, none⟩
      ⟨[], none, false, none, some "rate_limit hit"⟩
      (by decide) (by decide) (by decide) rfl).2.2.2.2.2.1]
    decide⟩

/-- C10: Re-enrollment is a read-only no-op: when an
(account, recipient-username) pair already has a stored recipient row,
`_ensure_recipient_enrolled` returns that row and leaves the recipient
store — hence every field of the row: status, current step, enrollment
time, next due time, thread id — unchanged. -/
theorem invite_reenrollment_noop (uid aid uname : String)
    (ruid : Option String) (now : Int) (db : List Recipient) (r : Recipient)
    (hfind : findRecipient db aid uname = some r) :
    ensureRecipientEnrolled uid aid uname ruid now db = (db, some r) := by
  unfold ensureRecipientEnrolled
  rw [hfind]

/-- C10 witness: re-enrolling an already-stopped, mid-program recipient
returns the stored row with all progress fields intact. -/
theorem invite_reenrollment_noop_witness :
    ensureRecipientEnrolled "u" "a" "bob" none 999
        [⟨"u", "a", "bob", some "77", "stopped", 2, some 5, none,
          some "th", some 9, none, some 10⟩]
      = ([⟨"u", "a", "bob", some "77", "stopped", 2, some 5, none,
          some "th", some 9, none, some 10⟩],
         some ⟨"u", "a", "bob", some "77", "stopped", 2, some 5, none,
          some "th", some 9, none, some 10⟩) :=
  invite_reenrollment_noop "u" "a" "bob" none 999
    [⟨"u", "a", "bob", some "77", "stopped", 2, some 5, none,
      some "th", some 9, none, some 10⟩]
    ⟨"u", "a", "bob", some "77", "stopped", 2, some 5, none,
      some "th", some 9, none, some 10⟩ (by decide)
